import Mathlib

/-!
Verification development for the Log-Sentinell repository.

Part one embeds the five-stage log pipeline (ingestion, parsing,
normalization, time-window aggregation, feature extraction).  The
pipeline's Python sources are not part of this tree (only their
documentation is), so those definitions are modelled from the spec and
say so in their doc comments.  Part two embeds, directly from the
TypeScript sources, the frontend request helper (lib/api.ts), the
upload validator and the anomaly-table sort (LogUpload.tsx and
AnomalyTable.tsx).  Timestamps are Unix epoch seconds as Int; JS/Python
numbers are modelled as rationals.
-/

/-- Stable insertion of x before the first element y with le x y. -/
def insertSorted {α : Type} (le : α → α → Bool) (x : α) : List α → List α
  | [] => [x]
  | y :: ys => if le x y then x :: y :: ys else y :: insertSorted le x ys

/-- Stable insertion sort: an element is inserted before every
tie-equal element that came later in the input, so the original
relative order of ties is preserved. -/
def sortBy {α : Type} (le : α → α → Bool) (l : List α) : List α :=
  l.foldr (insertSorted le) []

/-- ASCII lower-casing, the fragment of lower-casing the pipeline's
sanitization and the upload validator's comparisons depend on. -/
def lowerAscii (c : Char) : Char :=
  match c with
  | 'A' => 'a' | 'B' => 'b' | 'C' => 'c' | 'D' => 'd' | 'E' => 'e'
  | 'F' => 'f' | 'G' => 'g' | 'H' => 'h' | 'I' => 'i' | 'J' => 'j'
  | 'K' => 'k' | 'L' => 'l' | 'M' => 'm' | 'N' => 'n' | 'O' => 'o'
  | 'P' => 'p' | 'Q' => 'q' | 'R' => 'r' | 'S' => 's' | 'T' => 't'
  | 'U' => 'u' | 'V' => 'v' | 'W' => 'w' | 'X' => 'x' | 'Y' => 'y'
  | 'Z' => 'z'
  | c => c

/-- ASCII upper-casing for level tokens. -/
def upperAscii (c : Char) : Char :=
  match c with
  | 'a' => 'A' | 'b' => 'B' | 'c' => 'C' | 'd' => 'D' | 'e' => 'E'
  | 'f' => 'F' | 'g' => 'G' | 'h' => 'H' | 'i' => 'I' | 'j' => 'J'
  | 'k' => 'K' | 'l' => 'L' | 'm' => 'M' | 'n' => 'N' | 'o' => 'O'
  | 'p' => 'P' | 'q' => 'Q' | 'r' => 'R' | 's' => 'S' | 't' => 'T'
  | 'u' => 'U' | 'v' => 'V' | 'w' => 'W' | 'x' => 'X' | 'y' => 'Y'
  | 'z' => 'Z'
  | c => c

/-- Leading and trailing whitespace removed. -/
def trimChars (cs : List Char) : List Char :=
  ((cs.dropWhile Char.isWhitespace).reverse.dropWhile Char.isWhitespace).reverse

/-- Split at the characters satisfying p (empty runs included). -/
def splitOnP (p : Char → Bool) (cs : List Char) : List (List Char) :=
  cs.foldr
    (fun c acc =>
      if p c then [] :: acc
      else
        match acc with
        | [] => [[c]]
        | w :: ws => (c :: w) :: ws)
    [[]]

/-- The nonempty p-separated words. -/
def wordsBy (p : Char → Bool) (cs : List Char) : List (List Char) :=
  (splitOnP p cs).filter (fun w => w ≠ [])

namespace LogSentinel

/-- Modelled from the spec: the closed severity enumeration
{DEBUG, INFO, WARNING, ERROR, CRITICAL} (schema.py is missing). -/
inductive LogLevel where
  | debug
  | info
  | warning
  | error
  | critical
deriving DecidableEq, Repr

/-- Modelled from the spec: the Canonical Log Record (schema.py is
missing): UTC timestamp (epoch seconds), severity, sanitized service,
normalized message plus content hash, optional positive duration in
milliseconds, optional error code and request id. -/
structure LogEntry where
  timestamp : Int
  level : LogLevel
  service : String
  message : String
  message_hash : String
  duration_ms : Option ℚ
  error_code : Option String
  request_id : Option String
deriving DecidableEq, Repr

/-- Modelled from the spec: window alignment
window_start = floor(t / w) * w (aggregation.py is missing); floor
division is Int.fdiv, matching Python's // on negatives. -/
def align_timestamp_to_window (t w : Int) : Int :=
  Int.fdiv t w * w

/-- Modelled from the spec: an Aggregation Window for one
(window_start, service) pair holding the chronologically sorted records
of that bucket (schema.py is missing). -/
structure AggregatedLogWindow where
  window_start : Int
  window_size : Int
  service : String
  logs : List LogEntry
deriving DecidableEq, Repr

/-- Boolean timestamp order used for the stable in-window sort. -/
def logTsLE (a b : LogEntry) : Bool :=
  decide (a.timestamp ≤ b.timestamp)

/-- Grouping key of a record: (aligned window start, service). -/
def windowKey (w : Int) (e : LogEntry) : Int × String :=
  (align_timestamp_to_window e.timestamp w, e.service)

/-- Modelled from the spec: aggregate_logs (aggregation.py is missing):
fatal error when the window size is not strictly positive, otherwise
group records by (window_start, service) and sort each window's records
by timestamp with a stable sort. -/
def aggregate_logs (logs : List LogEntry) (w : Int) :
    Except String (List AggregatedLogWindow) :=
  if w ≤ 0 then
    .error "AggregationError: window_size_seconds must be positive"
  else
    .ok (((logs.map (windowKey w)).dedup).map (fun k =>
      { window_start := k.1
        window_size := w
        service := k.2
        logs := sortBy logTsLE (logs.filter (fun e => decide (windowKey w e = k))) }))

/-- Modelled from the spec: the Feature Vector of one window
(schema.py is missing); the metadata map is flattened into its two
required entries (raw record count, extraction timestamp). -/
structure FeatureVector where
  window_start : Int
  service : String
  total_events : Nat
  error_count : Nat
  warning_count : Nat
  info_count : Nat
  error_rate : ℚ
  warning_rate : ℚ
  median_duration_ms : Option ℚ
  p95_duration_ms : Option ℚ
  max_duration_ms : Option ℚ
  unique_messages : Nat
  unique_error_codes : Nat
  meta_log_count : Nat
  meta_extraction_timestamp : Int
deriving DecidableEq, Repr

/-- ERROR and CRITICAL both count toward error_count. -/
def isErrorLevel (l : LogLevel) : Bool :=
  match l with
  | .error => true
  | .critical => true
  | _ => false

/-- Ascending sorted list of the durations present in a window. -/
def sortedDurations (win : AggregatedLogWindow) : List ℚ :=
  sortBy (fun a b => decide (a ≤ b)) (win.logs.filterMap (fun e => e.duration_ms))

/-- Nearest-rank index for the 95th percentile: ceil(0.95 * n) - 1. -/
def p95Index (n : ℕ) : ℕ :=
  Nat.ceil ((95 * n : ℚ) / 100) - 1

/-- Standard median of an ascending sorted list (average of the two
middle values for even length). -/
def medianOf (ds : List ℚ) : ℚ :=
  let n := ds.length
  if n % 2 = 1 then ds.getD (n / 2) 0
  else (ds.getD (n / 2 - 1) 0 + ds.getD (n / 2) 0) / 2

/-- Modelled from the spec: extract_features (features.py is missing):
counts, rates (0 for an empty window), the three duration statistics
(absent when no record has a duration; nearest-rank p95; the maximum is
the last element of the ascending sorted durations), both cardinality
fields, and metadata holding the raw record count and an extraction
timestamp.  The extraction clock reading is the explicit input now. -/
def extract_features (win : AggregatedLogWindow) (now : Int) : FeatureVector :=
  let total := win.logs.length
  let ec := (win.logs.filter (fun e => isErrorLevel e.level)).length
  let wc := (win.logs.filter (fun e => decide (e.level = .warning))).length
  let ic := (win.logs.filter (fun e => decide (e.level = .info))).length
  let ds := sortedDurations win
  let n := ds.length
  { window_start := win.window_start
    service := win.service
    total_events := total
    error_count := ec
    warning_count := wc
    info_count := ic
    error_rate := if total = 0 then 0 else (ec : ℚ) / (total : ℚ)
    warning_rate := if total = 0 then 0 else (wc : ℚ) / (total : ℚ)
    median_duration_ms := if n = 0 then none else some (medianOf ds)
    p95_duration_ms := if n = 0 then none else some (ds.getD (p95Index n) 0)
    max_duration_ms := if n = 0 then none else some (ds.getD (n - 1) 0)
    unique_messages := ((win.logs.map (fun e => e.message_hash)).dedup).length
    unique_error_codes := ((win.logs.filterMap (fun e => e.error_code)).dedup).length
    meta_log_count := win.logs.length
    meta_extraction_timestamp := now }

/-- Modelled from the spec: batch feature extraction returning the
vectors plus a skipped count (the core statistical computation itself
never fails, so the model's skip count is zero). -/
def extract_features_from_windows (wins : List AggregatedLogWindow) (now : Int) :
    List FeatureVector × ℕ :=
  (wins.map (fun w => extract_features w now), 0)

/-- A loosely typed value of a parser-output field map. -/
inductive FieldValue where
  | str (s : String)
  | int (n : Int)
  | num (q : ℚ)
  | null
deriving DecidableEq, Repr

/-- Modelled from the spec: the parser-output field map holding the
candidate values for timestamp, level, service, message and duration
(parsers.py is missing), plus the optional pass-through fields. -/
structure ParsedLog where
  timestamp : Option FieldValue
  level : Option String
  service : Option String
  message : Option String
  duration : Option FieldValue
  error_code : Option String
  request_id : Option String
deriving DecidableEq, Repr

/-- Numeric value of a nonempty all-digit character run. -/
def digitsToNat? (cs : List Char) : Option ℕ :=
  if cs ≠ [] ∧ cs.all Char.isDigit then
    some (cs.foldl (fun a c => 10 * a + (c.toNat - 48)) 0)
  else none

/-- Signed decimal integer string. -/
def parseDec? (s : String) : Option Int :=
  match s.toList with
  | '-' :: cs => (digitsToNat? cs).map (fun n => -(n : Int))
  | cs => (digitsToNat? cs).map (fun n => (n : Int))

/-- Days between 1970-01-01 and the given civil date (proleptic
Gregorian), by the standard era decomposition. -/
def daysFromCivil (y : Int) (m d : ℕ) : Int :=
  let y2 : Int := if m ≤ 2 then y - 1 else y
  let era : Int := Int.fdiv y2 400
  let yoe : Int := y2 - era * 400
  let mp : Int := Int.fmod ((m : Int) + 9) 12
  let doy : Int := Int.fdiv (153 * mp + 2) 5 + ((d : Int) - 1)
  let doe : Int := yoe * 365 + Int.fdiv yoe 4 - Int.fdiv yoe 100 + doy
  era * 146097 + doe - 719468

/-- Fractional-second part "[.digits]" may precede the offset; drop it. -/
def dropFracSeconds (cs : List Char) : List Char :=
  match cs with
  | '.' :: rest => rest.dropWhile Char.isDigit
  | _ => cs

/-- Timezone suffix: empty (treated as UTC), Z, or +HH:MM / -HH:MM;
returns the offset in seconds. -/
def parseTzOffset? (cs : List Char) : Option Int :=
  match cs with
  | [] => some 0
  | ['Z'] => some 0
  | ['+', h1, h2, ':', m1, m2] =>
    match digitsToNat? [h1, h2], digitsToNat? [m1, m2] with
    | some h, some m => some ((3600 * h + 60 * m : ℕ) : Int)
    | _, _ => none
  | ['-', h1, h2, ':', m1, m2] =>
    match digitsToNat? [h1, h2], digitsToNat? [m1, m2] with
    | some h, some m => some (-((3600 * h + 60 * m : ℕ) : Int))
    | _, _ => none
  | _ => none

/-- Modelled from the spec: ISO-8601 timestamp acceptance
(normalizers.py is missing): YYYY-MM-DDThh:mm:ss with optional
fractional seconds (truncated) and optional offset, converted to a UTC
epoch second. -/
def parseIso? (s : String) : Option Int :=
  match s.toList with
  | y1 :: y2 :: y3 :: y4 :: '-' :: m1 :: m2 :: '-' :: d1 :: d2 :: sep ::
      h1 :: h2 :: ':' :: n1 :: n2 :: ':' :: s1 :: s2 :: rest =>
    if sep = 'T' ∨ sep = ' ' then
      match digitsToNat? [y1, y2, y3, y4], digitsToNat? [m1, m2],
          digitsToNat? [d1, d2], digitsToNat? [h1, h2],
          digitsToNat? [n1, n2], digitsToNat? [s1, s2] with
      | some y, some mo, some d, some h, some mi, some sec =>
        if 1 ≤ mo ∧ mo ≤ 12 ∧ 1 ≤ d ∧ d ≤ 31 ∧ h ≤ 23 ∧ mi ≤ 59 ∧ sec ≤ 60 then
          match parseTzOffset? (dropFracSeconds rest) with
          | some off =>
            some (86400 * daysFromCivil (y : Int) mo d +
              ((3600 * h + 60 * mi + sec : ℕ) : Int) - off)
          | none => none
        else none
      | _, _, _, _, _, _ => none
    else none
  | _ => none

/-- Epoch values at or above 10^11 are interpreted as milliseconds. -/
def epochFromInt (n : Int) : Int :=
  if 100000000000 ≤ n then Int.fdiv n 1000 else n

/-- Modelled from the spec: normalize_timestamp (normalizers.py is
missing): accepts ISO-8601 strings, Unix epoch seconds and Unix epoch
milliseconds (numeric or numeric-string); anything else fails. -/
def normalize_timestamp (v : Option FieldValue) : Option Int :=
  match v with
  | none => none
  | some .null => none
  | some (.int n) => some (epochFromInt n)
  | some (.num q) => some (epochFromInt ⌊q⌋)
  | some (.str s) =>
    match parseDec? s with
    | some n => some (epochFromInt n)
    | none => parseIso? s

/-- Recognized level tokens after upcasing, with the synonym mapping
WARN→WARNING, ERR→ERROR, CRIT/FATAL→CRITICAL. -/
def levelOfToken (u : String) : Option LogLevel :=
  if u = "DEBUG" then some .debug
  else if u = "INFO" then some .info
  else if u = "WARNING" ∨ u = "WARN" then some .warning
  else if u = "ERROR" ∨ u = "ERR" then some .error
  else if u = "CRITICAL" ∨ u = "CRIT" ∨ u = "FATAL" then some .critical
  else none

/-- Modelled from the spec: normalize_level (normalizers.py is
missing): case-insensitive, synonym-mapped, defaulting to INFO for a
missing or unrecognized token (never a failure). -/
def normalize_level (v : Option String) : LogLevel :=
  match v with
  | none => .info
  | some s => (levelOfToken (String.mk (s.toList.map upperAscii))).getD .info

/-- Characters allowed in a sanitized service identifier. -/
def serviceAllowed (c : Char) : Bool :=
  decide (('a' ≤ c ∧ c ≤ 'z') ∨ ('0' ≤ c ∧ c ≤ '9') ∨ c = '_' ∨ c = '-')

/-- Modelled from the spec: normalize_service (normalizers.py is
missing): lower-case, trim, truncate to 128 characters, strip anything
outside [a-z0-9_-]; an empty result fails. -/
def normalize_service (v : Option String) : Option String :=
  match v with
  | none => none
  | some s =>
    let t := ((trimChars (s.toList.map lowerAscii)).take 128).filter serviceAllowed
    if t.isEmpty then none else some (String.mk t)

/-- Internal whitespace (including newlines) collapsed to single
spaces. -/
def collapseWs (s : String) : String :=
  String.mk (((wordsBy Char.isWhitespace s.toList).intersperse [' ']).flatten)

/-- Hex digit of a value below 16. -/
def hexDigit (n : ℕ) : Char :=
  if n < 10 then Char.ofNat (48 + n) else Char.ofNat (87 + n)

/-- Sixteen-hex-character rendering of a value below 2^64. -/
def toHex16 (n : ℕ) : String :=
  String.mk ((List.range 16).map (fun i => hexDigit (n / 16 ^ (15 - i) % 16)))

/-- Modelled from the spec: the stable fixed-width (16 hex character)
content hash over the post-normalization message text; a deterministic
polynomial fold modulo 2^64 stands in for the missing SHA-256-based
implementation. -/
def messageHash (s : String) : String :=
  toHex16 (s.toList.foldl (fun a c => (a * 131 + c.toNat) % 2 ^ 64) 0)

/-- Modelled from the spec: normalize_message (normalizers.py is
missing): collapse whitespace, truncate to 2048 characters, hash the
post-normalization text; an empty result fails. -/
def normalize_message (v : Option String) : Option (String × String) :=
  match v with
  | none => none
  | some s =>
    let m := String.mk ((collapseWs s).toList.take 2048)
    if m = "" then none else some (m, messageHash m)

/-- Unsigned decimal with optional fractional part. -/
def parseRatDigits? (cs : List Char) : Option ℚ :=
  match cs.span (fun c => c ≠ '.') with
  | (intPart, []) => (digitsToNat? intPart).map (fun n => (n : ℚ))
  | (intPart, _ :: frac) =>
    match digitsToNat? intPart, digitsToNat? frac with
    | some n, some f => some ((n : ℚ) + (f : ℚ) / (10 ^ frac.length : ℚ))
    | _, _ => none

/-- Signed decimal string with optional fractional part. -/
def parseRat? (s : String) : Option ℚ :=
  match trimChars s.toList with
  | '-' :: cs => (parseRatDigits? cs).map (fun q => -q)
  | '+' :: cs => parseRatDigits? cs
  | cs => parseRatDigits? cs

/-- Modelled from the spec: normalize_duration (normalizers.py is
missing): accepts integer or floating-point milliseconds including
numeric strings; values at or below zero, or invalid values, are
absent (none), never a failure. -/
def normalize_duration (v : Option FieldValue) : Option ℚ :=
  match v with
  | none => none
  | some .null => none
  | some (.int n) => if n ≤ 0 then none else some ((n : ℚ))
  | some (.num q) => if q ≤ 0 then none else some q
  | some (.str s) =>
    match parseRat? s with
    | none => none
    | some q => if q ≤ 0 then none else some q

/-- Modelled from the spec: normalize_log (normalizers.py is missing):
produce a Canonical Log Record, failing exactly when timestamp, service
or message cannot be produced; level and duration degrade gracefully. -/
def normalize_log (p : ParsedLog) : Option LogEntry :=
  match normalize_timestamp p.timestamp, normalize_service p.service,
      normalize_message p.message with
  | some ts, some sv, some mh =>
    some { timestamp := ts
           level := normalize_level p.level
           service := sv
           message := mh.1
           message_hash := mh.2
           duration_ms := normalize_duration p.duration
           error_code := p.error_code
           request_id := p.request_id }
  | _, _, _ => none

/-- Modelled from the spec: batch normalization returning the canonical
records plus the count of skipped records; it never raises. -/
def normalize_logs (ps : List ParsedLog) : List LogEntry × ℕ :=
  (ps.filterMap normalize_log,
   (ps.filter (fun p => (normalize_log p).isNone)).length)

/-- Candidate duration from a trailing token of the form (Nms). -/
def parseDurationToken? (tok : String) : Option ℚ :=
  match tok.toList with
  | '(' :: rest =>
    match rest.reverse with
    | ')' :: 's' :: 'm' :: digsRev =>
      if digsRev ≠ [] then (digitsToNat? digsRev.reverse).map (fun n => (n : ℚ))
      else none
    | _ => none
  | _ => none

/-- Modelled from the spec: the deterministic text-format parse rule
(parsers.py is missing): TIMESTAMP LEVEL SERVICE MESSAGE with an
optional parenthesized duration suffix such as (500ms); a line without
all three required fields plus a message is unparseable (none). -/
def parse_log (line : String) : Option ParsedLog :=
  match (wordsBy (fun c => c = ' ') line.toList).map String.mk with
  | ts :: lvl :: svc :: rest =>
    let dur := rest.getLast? >>= (fun t => parseDurationToken? t)
    let msgToks := if (rest.getLast? >>= parseDurationToken?).isSome
      then rest.dropLast else rest
    if msgToks = [] then none
    else
      some { timestamp := some (.str ts)
             level := some lvl
             service := some svc
             message := some (String.intercalate " " msgToks)
             duration := dur.map (fun q => FieldValue.num q)
             error_code := none
             request_id := none }
  | _ => none

/-- Modelled from the spec: batch parsing with skip count. -/
def parse_logs (raws : List String) : List ParsedLog × ℕ :=
  (raws.filterMap parse_log,
   (raws.filter (fun r => (parse_log r).isNone)).length)

/-- Modelled from the spec: ingestion of a text-format file is the
lazy sequence of its non-empty lines. -/
def ingest_text (file : List String) : List String :=
  file.filter (fun line => line ≠ "")

/-- The pipeline configuration surface needed by the text path. -/
structure PipelineConfig where
  window_size_seconds : Int
deriving DecidableEq, Repr

/-- Modelled from the spec: the five-stage pipeline over a text-format
file (ingestion, parsing, normalization, aggregation, feature
extraction); the extraction clock reading is the explicit input now,
the only place any clock enters. -/
def run_pipeline (file : List String) (cfg : PipelineConfig) (now : Int) :
    Except String (List FeatureVector × ℕ) :=
  let raws := ingest_text file
  let parsed := parse_logs raws
  let normalized := normalize_logs parsed.1
  match aggregate_logs normalized.1 cfg.window_size_seconds with
  | .error e => .error e
  | .ok wins =>
    .ok (wins.map (fun w => extract_features w now), parsed.2 + normalized.2)

/-- The extraction-timestamp metadata entry, cleared (for comparing two
runs up to the audit clock reading). -/
def clearExtractionTimestamp (fv : FeatureVector) : FeatureVector :=
  { fv with meta_extraction_timestamp := 0 }

end LogSentinel

namespace Frontend

/-- The detail and message fields an error-response JSON body may
carry (absent fields are none). -/
structure ErrorPayload where
  detail : Option String
  message : Option String
deriving DecidableEq, Repr

/-- The observable state of one fetch response as lib/api.ts reads it:
ok flag, statusText, whether the content-type header includes
application/json (false when the header is null), the outcome of
res.json() on the error path (none when parsing rejects or the payload
is null), the outcome of res.text() (none when reading rejects), and
the parsed JSON body used on the success path. -/
structure HttpResponse (T : Type) where
  ok : Bool
  statusText : String
  contentTypeJson : Bool
  errJson : Option ErrorPayload
  errText : Option String
  body : T

/-- JavaScript string-or: v || d, where the empty string is falsy. -/
def jsOrString (v : Option String) (d : String) : String :=
  match v with
  | some s => if s = "" then d else s
  | none => d

/-- The request helper of lib/api.ts: return the parsed JSON body when
res.ok, otherwise throw an Error whose message follows
payload.detail || payload.message || (statusText || "Request failed")
for JSON bodies, the response text when non-empty for other bodies,
and the statusText-based default whenever reading or parsing the error
body fails. -/
def request {T : Type} (r : HttpResponse T) : Except String T :=
  if r.ok then .ok r.body
  else
    let base := if r.statusText = "" then "Request failed" else r.statusText
    let msg :=
      if r.contentTypeJson then
        match r.errJson with
        | some p => jsOrString p.detail (jsOrString p.message base)
        | none => base
      else
        match r.errText with
        | some t => if t = "" then base else t
        | none => base
    .error msg

/-- A File as the upload validator reads it: name, MIME type, size in
bytes. -/
structure JsFile where
  name : String
  type : String
  size : ℕ
deriving DecidableEq, Repr

/-- Characters up to and including the first dot (the whole list when
no dot occurs). -/
def takeUntilDot : List Char → List Char
  | [] => []
  | c :: cs => if c = '.' then ['.'] else c :: takeUntilDot cs

/-- name.slice(name.lastIndexOf(".")).toLowerCase() of LogUpload.tsx:
the suffix from the last dot, or (lastIndexOf returning -1, hence
slice(-1)) the last character when the name has no dot. -/
def jsFileExt (name : String) : String :=
  let cs := name.toList
  let ext := if '.' ∈ cs then (takeUntilDot cs.reverse).reverse
    else cs.drop (cs.length - 1)
  String.mk (ext.map lowerAscii)

/-- The validTypes list of LogUpload.tsx. -/
def validTypes : List String :=
  ["text/csv", "application/json", "application/vnd.ms-excel"]

/-- The validExtensions list of LogUpload.tsx. -/
def validExtensions : List String :=
  [".csv", ".json"]

/-- The validateFile function of LogUpload.tsx: none means the file is
accepted, some carries the error message. -/
def validateFile (f : JsFile) : Option String :=
  if ¬ validTypes.contains f.type ∧ ¬ validExtensions.contains (jsFileExt f.name) then
    some "Invalid file type. Please upload a CSV or JSON file."
  else if 100 * 1024 * 1024 < f.size then
    some "File too large. Maximum size is 100MB."
  else none

/-- The name ends, case-insensitively (ASCII), in the given lowercase
suffix. -/
def endsWithCI (name suffix : String) : Prop :=
  suffix.toList <:+ name.toList.map lowerAscii

/-- The Severity union of types/index.ts. -/
inductive Severity where
  | low
  | medium
  | high
  | critical
deriving DecidableEq, Repr

/-- An Anomaly row as AnomalyTable.tsx sorts it; timestamp is the epoch
value of new Date(ts).getTime(), numbers are rationals. -/
structure Anomaly where
  id : String
  timestamp : Int
  service : String
  feature : String
  observed_value : ℚ
  baseline_value : ℚ
  severity : Severity
  deviation : ℚ
deriving DecidableEq, Repr

/-- The sortable column keys of AnomalyTable.tsx. -/
inductive SortKey where
  | timestamp
  | service
  | severity
  | deviation
deriving DecidableEq, Repr

/-- Sort direction. -/
inductive SortDir where
  | asc
  | desc
deriving DecidableEq, Repr

/-- The severityOrder map of AnomalyTable.tsx. -/
def severityOrder : Severity → ℕ
  | .low => 0
  | .medium => 1
  | .high => 2
  | .critical => 3

/-- Sign-valued string comparison standing in for localeCompare. -/
def strCmp (a b : String) : Int :=
  if a < b then -1 else if b < a then 1 else 0

/-- The per-key comparator value cmp of AnomalyTable.tsx (only its sign
matters). -/
def anomalyCmp (key : SortKey) (a b : Anomaly) : ℚ :=
  match key with
  | .timestamp => ((a.timestamp - b.timestamp : Int) : ℚ)
  | .service => ((strCmp a.service b.service : Int) : ℚ)
  | .severity => ((severityOrder a.severity : Int) - (severityOrder b.severity : Int) : ℚ)
  | .deviation => a.deviation - b.deviation

/-- The comparator actually passed to Array.prototype.sort: cmp for
ascending, -cmp for descending. -/
def jsComparator (key : SortKey) (dir : SortDir) (a b : Anomaly) : ℚ :=
  match dir with
  | .asc => anomalyCmp key a b
  | .desc => -anomalyCmp key a b

/-- The sorted copy [...anomalies].sort(comparator) the table renders;
Array.prototype.sort is stable, as is the model's stable sort. -/
def sortedAnomalies (key : SortKey) (dir : SortDir) (xs : List Anomaly) :
    List Anomaly :=
  sortBy (fun a b => decide (jsComparator key dir a b ≤ 0)) xs

end Frontend

namespace LogSentinel

/-- A canonical record with the given timestamp, for concrete checks. -/
def sampleEntry (ts : Int) : LogEntry :=
  { timestamp := ts
    level := .error
    service := "api-server"
    message := "connection timeout"
    message_hash := "h"
    duration_ms := none
    error_code := none
    request_id := none }

/-- The aggregation window produced for sampleEntry 310 at window size
300. -/
def sampleWindow : AggregatedLogWindow :=
  { window_start := 300
    window_size := 300
    service := "api-server"
    logs := [sampleEntry 310] }

/-- A record with duration 10 * (i + 1) ms, for the duration scenario. -/
def durLog (i : ℕ) : LogEntry :=
  { timestamp := (i : Int)
    level := .info
    service := "svc"
    message := "m"
    message_hash := "h"
    duration_ms := some ((10 * (i + 1) : ℕ) : ℚ)
    error_code := none
    request_id := none }

/-- A window holding ten records with durations 10, 20, ..., 100 ms. -/
def durWindow : AggregatedLogWindow :=
  { window_start := 0
    window_size := 300
    service := "svc"
    logs := (List.range 10).map durLog }

/-- The one-line text file of the determinism counterexample. -/
def c1File : List String :=
  ["100 ERROR api-server connection timeout (500ms)"]

/-- The parser output of the spec scenario JSON record with a missing
timestamp. -/
def c7Parsed : ParsedLog :=
  { timestamp := none
    level := some "warn"
    service := some "DB"
    message := some "slow query"
    duration := none
    error_code := none
    request_id := none }

end LogSentinel

namespace Frontend

/-- A failed response with empty statusText, a non-JSON content type
and an empty response text. -/
def fallbackResponse : HttpResponse Unit :=
  { ok := false
    statusText := ""
    contentTypeJson := false
    errJson := none
    errText := some ""
    body := () }

/-- Two anomaly rows for concrete checks of the table sort. -/
def sampleAnomalies : List Anomaly :=
  [{ id := "1"
     timestamp := 5
     service := "api"
     feature := "error_rate"
     observed_value := 2
     baseline_value := 1
     severity := .low
     deviation := 3 },
   { id := "2"
     timestamp := 3
     service := "db"
     feature := "error_rate"
     observed_value := 2
     baseline_value := 1
     severity := .high
     deviation := 1 }]

end Frontend

theorem insertSorted_perm {α : Type} (le : α → α → Bool) (x : α) (l : List α) :
    (insertSorted le x l).Perm (x :: l) := by
  induction l with
  | nil => simp [insertSorted]
  | cons y ys ih =>
    by_cases h : le x y = true
    · simp [insertSorted, h]
    · simp only [insertSorted, if_neg h]
      exact (ih.cons y).trans (List.Perm.swap x y ys)

theorem sortBy_perm {α : Type} (le : α → α → Bool) (l : List α) :
    (sortBy le l).Perm l := by
  induction l with
  | nil => simp [sortBy]
  | cons a t ih =>
    have h : sortBy le (a :: t) = insertSorted le a (sortBy le t) := rfl
    rw [h]
    exact (insertSorted_perm le a (sortBy le t)).trans (ih.cons a)

theorem pairwise_insertSorted {α : Type} (le : α → α → Bool)
    (total : ∀ a b, (le a b || le b a) = true)
    (trans : ∀ a b c, le a b = true → le b c = true → le a c = true)
    (x : α) (l : List α) (h : l.Pairwise (fun a b => le a b = true)) :
    (insertSorted le x l).Pairwise (fun a b => le a b = true) := by
  induction l with
  | nil => simp [insertSorted]
  | cons y ys ih =>
    rcases List.pairwise_cons.mp h with ⟨hy, hys⟩
    by_cases hxy : le x y = true
    · rw [insertSorted, if_pos hxy]
      refine List.pairwise_cons.mpr ⟨?_, h⟩
      intro z hz
      rcases List.mem_cons.mp hz with rfl | hz
      · exact hxy
      · exact trans x y z hxy (hy z hz)
    · rw [insertSorted, if_neg hxy]
      have hxy' : le x y = false := by
        revert hxy; cases le x y <;> simp
      have hyx : le y x = true := by
        have htot := total x y
        revert htot; rw [hxy']; simp
      refine List.pairwise_cons.mpr ⟨?_, ih hys⟩
      intro z hz
      rcases List.mem_cons.mp ((insertSorted_perm le x ys).mem_iff.mp hz) with rfl | hz
      · exact hyx
      · exact hy z hz

theorem sortBy_pairwise {α : Type} (le : α → α → Bool)
    (total : ∀ a b, (le a b || le b a) = true)
    (trans : ∀ a b c, le a b = true → le b c = true → le a c = true)
    (l : List α) :
    (sortBy le l).Pairwise (fun a b => le a b = true) := by
  induction l with
  | nil => simp [sortBy]
  | cons a t ih => exact pairwise_insertSorted le total trans a _ ih

theorem filter_insertSorted_pos {α : Type} (le : α → α → Bool) (p : α → Bool)
    (x : α) (l : List α) (hpx : p x = true)
    (hskip : ∀ z ∈ l, le x z = false → p z = false) :
    (insertSorted le x l).filter p = x :: l.filter p := by
  induction l with
  | nil => simp [insertSorted, hpx]
  | cons y ys ih =>
    by_cases hxy : le x y = true
    · rw [insertSorted, if_pos hxy]
      simp [List.filter_cons, hpx]
    · rw [insertSorted, if_neg hxy]
      have hxy' : le x y = false := by
        revert hxy; cases le x y <;> simp
      have hpy : p y = false :=
        hskip y (List.mem_cons_self y ys) hxy'
      have ih' := ih (fun z hz => hskip z (List.mem_cons_of_mem y hz))
      simp [List.filter_cons, hpy, ih']

theorem filter_insertSorted_neg {α : Type} (le : α → α → Bool) (p : α → Bool)
    (x : α) (l : List α) (hpx : p x = false) :
    (insertSorted le x l).filter p = l.filter p := by
  induction l with
  | nil => simp [insertSorted, hpx]
  | cons y ys ih =>
    by_cases hxy : le x y = true
    · simp [insertSorted, hxy, List.filter_cons, hpx]
    · by_cases hpy : p y = true <;>
        simp [insertSorted, hxy, List.filter_cons, hpy, ih]

namespace LogSentinel

theorem sortBy_filter_ts (t : Int) (l : List LogEntry) :
    (sortBy logTsLE l).filter (fun e => decide (e.timestamp = t)) =
      l.filter (fun e => decide (e.timestamp = t)) := by
  induction l with
  | nil => rfl
  | cons a l ih =>
    have hsort : sortBy logTsLE (a :: l) = insertSorted logTsLE a (sortBy logTsLE l) := rfl
    rw [hsort]
    by_cases hpa : a.timestamp = t
    · rw [filter_insertSorted_pos logTsLE _ a _ (by simp [hpa]) ?hskip]
      · rw [ih]
        simp [List.filter_cons, hpa]
      case hskip =>
        intro z hz hle
        simp only [logTsLE, decide_eq_false_iff_not, not_le] at hle
        simp only [decide_eq_false_iff_not]
        omega
    · rw [filter_insertSorted_neg logTsLE _ a _ (by simp [hpa]), ih]
      simp [List.filter_cons, hpa]

theorem logTsLE_trans (a b c : LogEntry)
    (hab : logTsLE a b = true) (hbc : logTsLE b c = true) : logTsLE a c = true := by
  simp only [logTsLE, decide_eq_true_eq] at *
  omega

theorem logTsLE_total (a b : LogEntry) : (logTsLE a b || logTsLE b a) = true := by
  simp only [logTsLE, Bool.or_eq_true, decide_eq_true_eq]
  omega

theorem align_le_self (t w : Int) (hw : 0 < w) :
    align_timestamp_to_window t w ≤ t := by
  unfold align_timestamp_to_window
  rw [Int.fdiv_eq_ediv _ (le_of_lt hw)]
  exact Int.ediv_mul_le t (ne_of_gt hw)

theorem self_lt_align_add (t w : Int) (hw : 0 < w) :
    t < align_timestamp_to_window t w + w := by
  unfold align_timestamp_to_window
  rw [Int.fdiv_eq_ediv _ (le_of_lt hw)]
  have h := Int.lt_ediv_add_one_mul_self t hw
  linarith [h]

theorem align_idempotent (t w : Int) (hw : w ≠ 0) :
    align_timestamp_to_window (align_timestamp_to_window t w) w =
      align_timestamp_to_window t w := by
  unfold align_timestamp_to_window
  rw [Int.mul_fdiv_cancel _ hw]

end LogSentinel

namespace LogSentinel

/-- C2: for every timestamp t and window size w > 0, the alignment
function align(t, w) = floor(t / w) * w is idempotent and satisfies
align(t, w) <= t < align(t, w) + w. -/
theorem align_timestamp_to_window_spec (t w : Int) (hw : 0 < w) :
    align_timestamp_to_window (align_timestamp_to_window t w) w =
        align_timestamp_to_window t w ∧
    align_timestamp_to_window t w ≤ t ∧
    t < align_timestamp_to_window t w + w :=
  ⟨align_idempotent t w (ne_of_gt hw), align_le_self t w hw,
    self_lt_align_add t w hw⟩

/-- Witness for C2 at t = 1738924335 (2025-02-07T10:32:15Z), w = 300. -/
theorem align_timestamp_to_window_spec_witness :
    (0 : Int) < 300 ∧
    (align_timestamp_to_window (align_timestamp_to_window 1738924335 300) 300 =
        align_timestamp_to_window 1738924335 300 ∧
      align_timestamp_to_window 1738924335 300 ≤ 1738924335 ∧
      (1738924335 : Int) < align_timestamp_to_window 1738924335 300 + 300) :=
  ⟨by decide, align_timestamp_to_window_spec 1738924335 300 (by decide)⟩

/-- C6: every window produced by the aggregator contains only records r
with window_start <= r.timestamp < window_start + w whose service is
the window's service, the records are exactly those of the input that
fall in that bucket, they are non-decreasing by timestamp, and the
original relative order is preserved on ties (the records at any fixed
timestamp appear in input order). -/
theorem aggregate_logs_window_invariants (logs : List LogEntry) (w : Int)
    (wins : List AggregatedLogWindow) (hagg : aggregate_logs logs w = .ok wins)
    (win : AggregatedLogWindow) (hwin : win ∈ wins) :
    (∀ r ∈ win.logs,
        win.window_start ≤ r.timestamp ∧ r.timestamp < win.window_start + w ∧
          r.service = win.service) ∧
    win.logs.Pairwise (fun a b => a.timestamp ≤ b.timestamp) ∧
    win.logs.Perm
      (logs.filter (fun e => decide (windowKey w e = (win.window_start, win.service)))) ∧
    (∀ t : Int,
        win.logs.filter (fun e => decide (e.timestamp = t)) =
          (logs.filter
              (fun e => decide (windowKey w e = (win.window_start, win.service)))).filter
            (fun e => decide (e.timestamp = t))) := by
  have hwle : ¬ w ≤ 0 := by
    intro hle
    simp [aggregate_logs, if_pos hle] at hagg
  have hw : 0 < w := by omega
  simp only [aggregate_logs, if_neg hwle, Except.ok.injEq] at hagg
  subst hagg
  obtain ⟨k, hk, rfl⟩ := List.mem_map.mp hwin
  obtain ⟨ws, svc⟩ := k
  dsimp only at *
  refine ⟨?_, ?_, ?_, ?_⟩
  · intro r hr
    have hr' := (sortBy_perm logTsLE _).mem_iff.mp hr
    obtain ⟨-, hkey⟩ := List.mem_filter.mp hr'
    have hkey' := of_decide_eq_true hkey
    have h1 : align_timestamp_to_window r.timestamp w = ws :=
      congrArg Prod.fst hkey'
    have h2 : r.service = svc := congrArg Prod.snd hkey'
    refine ⟨?_, ?_, h2⟩
    · rw [← h1]
      exact align_le_self r.timestamp w hw
    · rw [← h1]
      exact self_lt_align_add r.timestamp w hw
  · have hs := sortBy_pairwise logTsLE logTsLE_total logTsLE_trans
      (logs.filter (fun e => decide (windowKey w e = (ws, svc))))
    exact hs.imp (fun hab => by simpa [logTsLE] using hab)
  · exact sortBy_perm logTsLE _
  · intro t
    exact sortBy_filter_ts t _

/-- Witness for C6: one record at timestamp 310 aggregated at window
size 300 lands in the window starting at 300 and satisfies all four
window invariants there. -/
theorem aggregate_logs_window_invariants_witness :
    (∀ r ∈ sampleWindow.logs,
        sampleWindow.window_start ≤ r.timestamp ∧
          r.timestamp < sampleWindow.window_start + 300 ∧
          r.service = sampleWindow.service) ∧
    sampleWindow.logs.Pairwise (fun a b => a.timestamp ≤ b.timestamp) ∧
    sampleWindow.logs.Perm
      ([sampleEntry 310].filter
        (fun e =>
          decide (windowKey 300 e = (sampleWindow.window_start, sampleWindow.service)))) ∧
    (∀ t : Int,
        sampleWindow.logs.filter (fun e => decide (e.timestamp = t)) =
          ([sampleEntry 310].filter
              (fun e =>
                decide (windowKey 300 e = (sampleWindow.window_start, sampleWindow.service)))).filter
            (fun e => decide (e.timestamp = t))) :=
  aggregate_logs_window_invariants [sampleEntry 310] 300 [sampleWindow]
    (by rfl) sampleWindow (by decide)

end LogSentinel

namespace LogSentinel

theorem isErrorLevel_eq (l : LogLevel) :
    isErrorLevel l = decide (l = .error ∨ l = .critical) := by
  cases l <;> rfl

theorem length_filter_three_le {α : Type} (p q r : α → Bool) (l : List α)
    (hpq : ∀ a, p a = true → q a = false)
    (hpr : ∀ a, p a = true → r a = false)
    (hqr : ∀ a, q a = true → r a = false) :
    (l.filter p).length + (l.filter q).length + (l.filter r).length ≤ l.length := by
  induction l with
  | nil => simp
  | cons a tl ih =>
    simp only [List.filter_cons, List.length_cons]
    by_cases hp : p a = true
    · rw [if_pos hp, if_neg (by simp [hpq a hp]), if_neg (by simp [hpr a hp])]
      simp only [List.length_cons]
      omega
    · rw [if_neg hp]
      by_cases hq : q a = true
      · rw [if_pos hq, if_neg (by simp [hqr a hq])]
        simp only [List.length_cons]
        omega
      · rw [if_neg hq]
        by_cases hr : r a = true
        · rw [if_pos hr]
          simp only [List.length_cons]
          omega
        · rw [if_neg hr]
          omega

theorem level_counts_le (l : List LogEntry) :
    (l.filter (fun e => isErrorLevel e.level)).length +
        (l.filter (fun e => decide (e.level = .warning))).length +
        (l.filter (fun e => decide (e.level = .info))).length ≤ l.length :=
  length_filter_three_le _ _ _ l
    (fun a ha => by cases h : a.level <;> simp_all [isErrorLevel])
    (fun a ha => by cases h : a.level <;> simp_all [isErrorLevel])
    (fun a ha => by cases h : a.level <;> simp_all)

/-- C5: total_events is the number of records in the window,
error_count counts ERROR and CRITICAL, warning_count counts WARNING,
info_count counts INFO; consequently
error_count + warning_count + info_count <= total_events, and an empty
window yields all-zero counts rather than an error. -/
theorem extract_features_count_spec (win : AggregatedLogWindow) (now : Int) :
    (extract_features win now).total_events = win.logs.length ∧
    (extract_features win now).error_count =
      (win.logs.filter
        (fun e => decide (e.level = .error ∨ e.level = .critical))).length ∧
    (extract_features win now).warning_count =
      (win.logs.filter (fun e => decide (e.level = .warning))).length ∧
    (extract_features win now).info_count =
      (win.logs.filter (fun e => decide (e.level = .info))).length ∧
    (extract_features win now).error_count + (extract_features win now).warning_count +
        (extract_features win now).info_count ≤ (extract_features win now).total_events ∧
    (win.logs = [] →
      (extract_features win now).total_events = 0 ∧
      (extract_features win now).error_count = 0 ∧
      (extract_features win now).warning_count = 0 ∧
      (extract_features win now).info_count = 0) := by
  have herr : (win.logs.filter (fun e => isErrorLevel e.level)) =
      win.logs.filter (fun e => decide (e.level = .error ∨ e.level = .critical)) :=
    List.filter_congr (fun e _ => isErrorLevel_eq e.level)
  refine ⟨rfl, ?_, rfl, rfl, ?_, ?_⟩
  · simpa [extract_features] using congrArg List.length herr
  · simpa [extract_features] using level_counts_le win.logs
  · intro h
    simp [extract_features, h]

/-- Witness for C5 at the one-record sample window. -/
theorem extract_features_count_spec_witness :
    (extract_features sampleWindow 0).total_events = sampleWindow.logs.length ∧
    (extract_features sampleWindow 0).error_count =
      (sampleWindow.logs.filter
        (fun e => decide (e.level = .error ∨ e.level = .critical))).length ∧
    (extract_features sampleWindow 0).warning_count =
      (sampleWindow.logs.filter (fun e => decide (e.level = .warning))).length ∧
    (extract_features sampleWindow 0).info_count =
      (sampleWindow.logs.filter (fun e => decide (e.level = .info))).length ∧
    (extract_features sampleWindow 0).error_count +
        (extract_features sampleWindow 0).warning_count +
        (extract_features sampleWindow 0).info_count ≤
      (extract_features sampleWindow 0).total_events ∧
    (sampleWindow.logs = [] →
      (extract_features sampleWindow 0).total_events = 0 ∧
      (extract_features sampleWindow 0).error_count = 0 ∧
      (extract_features sampleWindow 0).warning_count = 0 ∧
      (extract_features sampleWindow 0).info_count = 0) :=
  extract_features_count_spec sampleWindow 0

/-- C3: error_rate and warning_rate are count/total when total_events
is nonzero, exactly 0 when total_events is zero, and always lie in
[0, 1]. -/
theorem extract_features_rate_spec (win : AggregatedLogWindow) (now : Int) :
    ((extract_features win now).total_events ≠ 0 →
      (extract_features win now).error_rate =
        ((extract_features win now).error_count : ℚ) /
          ((extract_features win now).total_events : ℚ) ∧
      (extract_features win now).warning_rate =
        ((extract_features win now).warning_count : ℚ) /
          ((extract_features win now).total_events : ℚ)) ∧
    ((extract_features win now).total_events = 0 →
      (extract_features win now).error_rate = 0 ∧
      (extract_features win now).warning_rate = 0) ∧
    0 ≤ (extract_features win now).error_rate ∧
    (extract_features win now).error_rate ≤ 1 ∧
    0 ≤ (extract_features win now).warning_rate ∧
    (extract_features win now).warning_rate ≤ 1 := by
  have hec : (win.logs.filter (fun e => isErrorLevel e.level)).length ≤
      win.logs.length := List.length_filter_le _ _
  have hwc : (win.logs.filter (fun e => decide (e.level = .warning))).length ≤
      win.logs.length := List.length_filter_le _ _
  by_cases h : win.logs.length = 0
  · refine ⟨fun hne => absurd h hne, fun _ => ?_, ?_, ?_, ?_, ?_⟩ <;>
      simp [extract_features, h]
  · have hpos : (0 : ℚ) < (win.logs.length : ℚ) :=
      Nat.cast_pos.mpr (Nat.pos_of_ne_zero h)
    refine ⟨fun _ => ⟨?_, ?_⟩, fun h0 => absurd h0 h, ?_, ?_, ?_, ?_⟩
    · simp [extract_features, h]
    · simp [extract_features, h]
    · simp only [extract_features, if_neg h]
      exact div_nonneg (Nat.cast_nonneg _) (le_of_lt hpos)
    · simp only [extract_features, if_neg h]
      exact (div_le_one hpos).mpr (Nat.cast_le.mpr hec)
    · simp only [extract_features, if_neg h]
      exact div_nonneg (Nat.cast_nonneg _) (le_of_lt hpos)
    · simp only [extract_features, if_neg h]
      exact (div_le_one hpos).mpr (Nat.cast_le.mpr hwc)

/-- Witness for C3 at the one-record sample window. -/
theorem extract_features_rate_spec_witness :
    ((extract_features sampleWindow 0).total_events ≠ 0 →
      (extract_features sampleWindow 0).error_rate =
        ((extract_features sampleWindow 0).error_count : ℚ) /
          ((extract_features sampleWindow 0).total_events : ℚ) ∧
      (extract_features sampleWindow 0).warning_rate =
        ((extract_features sampleWindow 0).warning_count : ℚ) /
          ((extract_features sampleWindow 0).total_events : ℚ)) ∧
    ((extract_features sampleWindow 0).total_events = 0 →
      (extract_features sampleWindow 0).error_rate = 0 ∧
      (extract_features sampleWindow 0).warning_rate = 0) ∧
    0 ≤ (extract_features sampleWindow 0).error_rate ∧
    (extract_features sampleWindow 0).error_rate ≤ 1 ∧
    0 ≤ (extract_features sampleWindow 0).warning_rate ∧
    (extract_features sampleWindow 0).warning_rate ≤ 1 :=
  extract_features_rate_spec sampleWindow 0

end LogSentinel

namespace LogSentinel

/-- C4: the three duration statistics are present iff at least one
record in the window has a duration; the statistics are computed on
the ascending sorted list of exactly the available durations; the
median is the standard median (average of the two middle values for
even counts), the 95th percentile is the sorted element at
nearest-rank index ceil(0.95 * n) - 1, the maximum is the last sorted
element; and a window with durations [10, 20, ..., 100] ms yields
median_duration_ms = 55, p95_duration_ms = 100, max_duration_ms = 100. -/
theorem extract_features_duration_spec (win : AggregatedLogWindow) (now : Int) :
    (((extract_features win now).median_duration_ms.isSome ∧
        (extract_features win now).p95_duration_ms.isSome ∧
        (extract_features win now).max_duration_ms.isSome) ↔
      ∃ r ∈ win.logs, r.duration_ms.isSome) ∧
    (sortedDurations win).Pairwise (fun a b : ℚ => a ≤ b) ∧
    (sortedDurations win).Perm (win.logs.filterMap (fun e => e.duration_ms)) ∧
    (sortedDurations win ≠ [] →
      (extract_features win now).median_duration_ms =
        some (medianOf (sortedDurations win)) ∧
      (extract_features win now).p95_duration_ms =
        some ((sortedDurations win).getD
          (Nat.ceil (((95 : ℚ) / 100) * ((sortedDurations win).length : ℚ)) - 1) 0) ∧
      (extract_features win now).max_duration_ms =
        some ((sortedDurations win).getD ((sortedDurations win).length - 1) 0)) ∧
    (extract_features durWindow 0).median_duration_ms = some 55 ∧
    (extract_features durWindow 0).p95_duration_ms = some 100 ∧
    (extract_features durWindow 0).max_duration_ms = some 100 := by
  have hperm := sortBy_perm (fun a b : ℚ => decide (a ≤ b))
    (win.logs.filterMap (fun e => e.duration_ms))
  have hsd : sortedDurations durWindow = [10, 20, 30, 40, 50, 60, 70, 80, 90, 100] := by
    decide
  have hlen : (sortedDurations durWindow).length = 10 := by rw [hsd]; rfl
  have hlen0 : ¬ (sortedDurations durWindow).length = 0 := by rw [hlen]; simp
  have hp9 : p95Index 10 = 9 := by
    unfold p95Index
    have hc : Nat.ceil ((95 * ((10 : ℕ) : ℚ)) / 100) = 10 := by
      rw [Nat.ceil_eq_iff (by norm_num)]
      norm_num
    norm_num at hc ⊢
    omega
  refine ⟨?_, ?_, hperm, ?_, ?_, ?_, ?_⟩
  · constructor
    · rintro ⟨hm, -, -⟩
      by_contra hnone
      push_neg at hnone
      have hnil : win.logs.filterMap (fun e => e.duration_ms) = [] := by
        rw [List.filterMap_eq_nil_iff]
        intro a ha
        exact Option.not_isSome_iff_eq_none.mp (by simpa using hnone a ha)
      have hn : (sortedDurations win).length = 0 := by
        rw [show sortedDurations win =
            sortBy (fun a b : ℚ => decide (a ≤ b))
              (win.logs.filterMap (fun e => e.duration_ms)) from rfl,
          hperm.length_eq, hnil]
        rfl
      simp [extract_features, hn] at hm
    · rintro ⟨r, hr, hdur⟩
      obtain ⟨q, hq⟩ := Option.isSome_iff_exists.mp hdur
      have hmem : q ∈ win.logs.filterMap (fun e => e.duration_ms) :=
        List.mem_filterMap.mpr ⟨r, hr, hq⟩
      have hn : ¬ (sortedDurations win).length = 0 := by
        rw [show sortedDurations win =
            sortBy (fun a b : ℚ => decide (a ≤ b))
              (win.logs.filterMap (fun e => e.duration_ms)) from rfl,
          hperm.length_eq]
        intro h0
        rw [List.length_eq_zero] at h0
        rw [h0] at hmem
        exact absurd hmem (List.not_mem_nil q)
      simp [extract_features, hn]
  · have hs := sortBy_pairwise (fun a b : ℚ => decide (a ≤ b))
      (fun a b => by simpa using le_total a b)
      (fun a b c hab hbc => by
        simp only [decide_eq_true_eq] at *
        exact le_trans hab hbc)
      (win.logs.filterMap (fun e => e.duration_ms))
    exact hs.imp (fun hab => by simpa using hab)
  · intro hne
    have hn : ¬ (sortedDurations win).length = 0 := by
      simpa [List.length_eq_zero] using hne
    have harith : ((95 : ℚ) / 100) * ((sortedDurations win).length : ℚ) =
        (95 * ((sortedDurations win).length : ℚ)) / 100 := by ring
    exact ⟨by simp [extract_features, hn],
      by simp [extract_features, hn, p95Index, harith],
      by simp [extract_features, hn]⟩
  · have h0 : (extract_features durWindow 0).median_duration_ms =
        some (medianOf (sortedDurations durWindow)) := by
      simp [extract_features, hlen0]
    rw [h0, hsd]
    norm_num [medianOf]
  · have h0 : (extract_features durWindow 0).p95_duration_ms =
        some ((sortedDurations durWindow).getD (p95Index 10) 0) := by
      simp [extract_features, hlen0, hlen]
    rw [h0, hsd, hp9]
    simp
  · have h0 : (extract_features durWindow 0).max_duration_ms =
        some ((sortedDurations durWindow).getD (10 - 1) 0) := by
      simp [extract_features, hlen0, hlen]
    rw [h0, hsd]
    simp

/-- Witness for C4 at the ten-duration scenario window. -/
theorem extract_features_duration_spec_witness :
    (((extract_features durWindow 0).median_duration_ms.isSome ∧
        (extract_features durWindow 0).p95_duration_ms.isSome ∧
        (extract_features durWindow 0).max_duration_ms.isSome) ↔
      ∃ r ∈ durWindow.logs, r.duration_ms.isSome) ∧
    (sortedDurations durWindow).Pairwise (fun a b : ℚ => a ≤ b) ∧
    (sortedDurations durWindow).Perm (durWindow.logs.filterMap (fun e => e.duration_ms)) ∧
    (sortedDurations durWindow ≠ [] →
      (extract_features durWindow 0).median_duration_ms =
        some (medianOf (sortedDurations durWindow)) ∧
      (extract_features durWindow 0).p95_duration_ms =
        some ((sortedDurations durWindow).getD
          (Nat.ceil (((95 : ℚ) / 100) * ((sortedDurations durWindow).length : ℚ)) - 1) 0) ∧
      (extract_features durWindow 0).max_duration_ms =
        some ((sortedDurations durWindow).getD ((sortedDurations durWindow).length - 1) 0)) ∧
    (extract_features durWindow 0).median_duration_ms = some 55 ∧
    (extract_features durWindow 0).p95_duration_ms = some 100 ∧
    (extract_features durWindow 0).max_duration_ms = some 100 :=
  extract_features_duration_spec durWindow 0

end LogSentinel

namespace LogSentinel

theorem normalize_logs_length (ps : List ParsedLog) :
    (normalize_logs ps).1.length + (normalize_logs ps).2 = ps.length := by
  simp only [normalize_logs]
  induction ps with
  | nil => rfl
  | cons p ps ih =>
    simp only [List.filterMap_cons, List.filter_cons]
    cases h : normalize_log p <;> simp [h] <;> omega

/-- C7: normalization fails (and at the batch level the record is
skipped and counted, never raised) exactly when a valid timestamp, a
non-empty sanitized service, or a non-empty message cannot be
produced; an unrecognized level token defaults to INFO without failing
the record; and an invalid or non-positive duration is treated as
absent (none), never as a failure. -/
theorem normalize_log_failure_spec (p : ParsedLog) (ps : List ParsedLog) :
    (normalize_log p = none ↔
      normalize_timestamp p.timestamp = none ∨ normalize_service p.service = none ∨
        normalize_message p.message = none) ∧
    (∀ s : String,
      levelOfToken (String.mk (s.toList.map upperAscii)) = none →
        normalize_level (some s) = .info) ∧
    (∀ e : LogEntry, normalize_log p = some e →
      e.level = normalize_level p.level ∧ e.duration_ms = normalize_duration p.duration) ∧
    (∀ n : Int, n ≤ 0 → normalize_duration (some (.int n)) = none) ∧
    (∀ q : ℚ, q ≤ 0 → normalize_duration (some (.num q)) = none) ∧
    (normalize_logs ps).1.length + (normalize_logs ps).2 = ps.length := by
  refine ⟨?_, ?_, ?_, ?_, ?_, normalize_logs_length ps⟩
  · cases h1 : normalize_timestamp p.timestamp <;>
      cases h2 : normalize_service p.service <;>
      cases h3 : normalize_message p.message <;>
      simp [normalize_log, h1, h2, h3]
  · intro s hs
    have hs' : levelOfToken (String.mk (s.data.map upperAscii)) = none := hs
    simp [normalize_level, hs']
  · intro e he
    cases h1 : normalize_timestamp p.timestamp <;>
      cases h2 : normalize_service p.service <;>
      cases h3 : normalize_message p.message <;>
      simp only [normalize_log, h1, h2, h3, Option.some.injEq,
        reduceCtorEq] at he
    subst he
    exact ⟨rfl, rfl⟩
  · intro n hn
    simp [normalize_duration, hn]
  · intro q hq
    simp [normalize_duration, hq]

/-- Witness for C7 at the spec scenario record (missing timestamp,
level warn, service DB, message slow query). -/
theorem normalize_log_failure_spec_witness :
    (normalize_log c7Parsed = none ↔
      normalize_timestamp c7Parsed.timestamp = none ∨
        normalize_service c7Parsed.service = none ∨
        normalize_message c7Parsed.message = none) ∧
    (∀ s : String,
      levelOfToken (String.mk (s.toList.map upperAscii)) = none →
        normalize_level (some s) = .info) ∧
    (∀ e : LogEntry, normalize_log c7Parsed = some e →
      e.level = normalize_level c7Parsed.level ∧
        e.duration_ms = normalize_duration c7Parsed.duration) ∧
    (∀ n : Int, n ≤ 0 → normalize_duration (some (.int n)) = none) ∧
    (∀ q : ℚ, q ≤ 0 → normalize_duration (some (.num q)) = none) ∧
    (normalize_logs [c7Parsed]).1.length + (normalize_logs [c7Parsed]).2 = 1 :=
  normalize_log_failure_spec c7Parsed [c7Parsed]

theorem clear_extract_eq (win : AggregatedLogWindow) (n m : Int) :
    clearExtractionTimestamp (extract_features win n) =
      clearExtractionTimestamp (extract_features win m) := rfl

/-- C1 (amended): two runs of the full five-stage pipeline with the
same input file and configuration produce Feature Vector sequences and
skip counts that agree on every field except the extraction-timestamp
metadata entry, and are byte-identical whenever the two extraction
clock readings coincide. -/
theorem run_pipeline_deterministic_up_to_clock (file : List String)
    (cfg : PipelineConfig) (now1 now2 : Int) :
    (run_pipeline file cfg now1).toOption.map
        (fun r => (r.1.map clearExtractionTimestamp, r.2)) =
      (run_pipeline file cfg now2).toOption.map
        (fun r => (r.1.map clearExtractionTimestamp, r.2)) ∧
    (now1 = now2 → run_pipeline file cfg now1 = run_pipeline file cfg now2) := by
  refine ⟨?_, fun h => by rw [h]⟩
  unfold run_pipeline
  dsimp only
  cases aggregate_logs
      (normalize_logs (parse_logs (ingest_text file)).1).1
      cfg.window_size_seconds with
  | error e => rfl
  | ok wins =>
    have hmap : (wins.map (fun w => extract_features w now1)).map clearExtractionTimestamp =
        (wins.map (fun w => extract_features w now2)).map clearExtractionTimestamp := by
      induction wins with
      | nil => rfl
      | cons a t iht =>
        simp only [List.map_cons, iht, clear_extract_eq a now1 now2]
    simp [Except.toOption, hmap]

/-- Witness for C1 at the one-line sample file with clock readings 5
and 7. -/
theorem run_pipeline_deterministic_up_to_clock_witness :
    ((run_pipeline c1File ⟨300⟩ 5).toOption.map
        (fun r => (r.1.map clearExtractionTimestamp, r.2)) =
      (run_pipeline c1File ⟨300⟩ 7).toOption.map
        (fun r => (r.1.map clearExtractionTimestamp, r.2))) ∧
    ((5 : Int) = 7 → run_pipeline c1File ⟨300⟩ 5 = run_pipeline c1File ⟨300⟩ 7) :=
  run_pipeline_deterministic_up_to_clock c1File ⟨300⟩ 5 7

/-- C1 counterexample: two independent runs of the pipeline on the
same valid input file with the same configuration but different
extraction clock readings produce different Feature Vector sequences
(they differ in the extraction-timestamp metadata entry), so
byte-identical output across independent runs fails as stated. -/
theorem run_pipeline_clock_counterexample :
    run_pipeline c1File ⟨300⟩ 0 ≠ run_pipeline c1File ⟨300⟩ 1 := by
  intro h
  have h0 : (run_pipeline c1File ⟨300⟩ 0).toOption.map
      (fun r => r.1.map (fun fv => fv.meta_extraction_timestamp)) =
      (run_pipeline c1File ⟨300⟩ 1).toOption.map
      (fun r => r.1.map (fun fv => fv.meta_extraction_timestamp)) := by rw [h]
  have h1 : (run_pipeline c1File ⟨300⟩ 0).toOption.map
      (fun r => r.1.map (fun fv => fv.meta_extraction_timestamp)) = some [0] := by decide
  have h2 : (run_pipeline c1File ⟨300⟩ 1).toOption.map
      (fun r => r.1.map (fun fv => fv.meta_extraction_timestamp)) = some [1] := by decide
  rw [h1, h2] at h0
  exact absurd h0 (by simp)

end LogSentinel

namespace Frontend

/-- C8 (amended): request returns the parsed JSON body exactly when
res.ok is true and otherwise always throws, with the thrown message
taken from the JSON body's detail or message field (in that order,
skipping empty strings), from the non-empty response text for
non-JSON bodies, or, as the final fallback — also whenever reading or
parsing the error body fails — from the status text, with the constant
"Request failed" when the status text is empty. -/
theorem request_spec {T : Type} (r : HttpResponse T) :
    ((request r).isOk = r.ok) ∧
    (r.ok = true → request r = .ok r.body) ∧
    (∀ p d, r.ok = false → r.contentTypeJson = true → r.errJson = some p →
      p.detail = some d → d ≠ "" → request r = .error d) ∧
    (∀ p s, r.ok = false → r.contentTypeJson = true → r.errJson = some p →
      (p.detail = none ∨ p.detail = some "") → p.message = some s → s ≠ "" →
      request r = .error s) ∧
    (∀ t, r.ok = false → r.contentTypeJson = false → r.errText = some t → t ≠ "" →
      request r = .error t) ∧
    (∀ p, r.ok = false → r.contentTypeJson = true → r.errJson = some p →
      (p.detail = none ∨ p.detail = some "") → (p.message = none ∨ p.message = some "") →
      request r = .error (if r.statusText = "" then "Request failed" else r.statusText)) ∧
    (r.ok = false → r.contentTypeJson = true → r.errJson = none →
      request r = .error (if r.statusText = "" then "Request failed" else r.statusText)) ∧
    (r.ok = false → r.contentTypeJson = false → (r.errText = none ∨ r.errText = some "") →
      request r = .error (if r.statusText = "" then "Request failed" else r.statusText)) := by
  refine ⟨?_, ?_, ?_, ?_, ?_, ?_, ?_, ?_⟩
  · cases hok : r.ok <;> simp [request, hok, Except.isOk, Except.toBool]
  · intro hok
    simp [request, hok]
  · intro p d hok hct hjson hd hne
    simp [request, hok, hct, hjson, jsOrString, hd, hne]
  · intro p s hok hct hjson hd hm hne
    rcases hd with hd | hd <;>
      simp [request, hok, hct, hjson, jsOrString, hd, hm, hne]
  · intro t hok hct ht hne
    simp [request, hok, hct, ht, hne]
  · intro p hok hct hjson hd hm
    rcases hd with hd | hd <;> rcases hm with hm | hm <;>
      simp [request, hok, hct, hjson, jsOrString, hd, hm]
  · intro hok hct hjson
    simp [request, hok, hct, hjson]
  · intro hok hct ht
    rcases ht with ht | ht <;> simp [request, hok, hct, ht]

/-- Witness for C8 at the fallback response. -/
theorem request_spec_witness :
    ((request fallbackResponse).isOk = fallbackResponse.ok) ∧
    (fallbackResponse.ok = true → request fallbackResponse = .ok fallbackResponse.body) ∧
    (∀ p d, fallbackResponse.ok = false → fallbackResponse.contentTypeJson = true →
      fallbackResponse.errJson = some p → p.detail = some d → d ≠ "" →
      request fallbackResponse = .error d) ∧
    (∀ p s, fallbackResponse.ok = false → fallbackResponse.contentTypeJson = true →
      fallbackResponse.errJson = some p → (p.detail = none ∨ p.detail = some "") →
      p.message = some s → s ≠ "" → request fallbackResponse = .error s) ∧
    (∀ t, fallbackResponse.ok = false → fallbackResponse.contentTypeJson = false →
      fallbackResponse.errText = some t → t ≠ "" → request fallbackResponse = .error t) ∧
    (∀ p, fallbackResponse.ok = false → fallbackResponse.contentTypeJson = true →
      fallbackResponse.errJson = some p → (p.detail = none ∨ p.detail = some "") →
      (p.message = none ∨ p.message = some "") →
      request fallbackResponse =
        .error (if fallbackResponse.statusText = "" then "Request failed"
          else fallbackResponse.statusText)) ∧
    (fallbackResponse.ok = false → fallbackResponse.contentTypeJson = true →
      fallbackResponse.errJson = none →
      request fallbackResponse =
        .error (if fallbackResponse.statusText = "" then "Request failed"
          else fallbackResponse.statusText)) ∧
    (fallbackResponse.ok = false → fallbackResponse.contentTypeJson = false →
      (fallbackResponse.errText = none ∨ fallbackResponse.errText = some "") →
      request fallbackResponse =
        .error (if fallbackResponse.statusText = "" then "Request failed"
          else fallbackResponse.statusText)) :=
  request_spec fallbackResponse

/-- C8 counterexample: at a failed response whose statusText is empty,
whose content type is not JSON and whose response text is empty, the
thrown message is the constant "Request failed", which differs from the
status text and the response text, and no JSON body fields exist, so
the claim's list of message sources does not cover it. -/
theorem request_fallback_counterexample :
    request fallbackResponse = .error "Request failed" ∧
    fallbackResponse.ok = false ∧
    fallbackResponse.statusText = "" ∧
    fallbackResponse.contentTypeJson = false ∧
    fallbackResponse.errJson = none ∧
    fallbackResponse.errText = some "" ∧
    "Request failed" ≠ "" :=
  ⟨rfl, rfl, rfl, rfl, rfl, rfl, by decide⟩

end Frontend

theorem lowerAscii_eq_dot (c : Char) : lowerAscii c = '.' ↔ c = '.' := by
  unfold lowerAscii
  split <;> simp_all

namespace Frontend

theorem stringMk_eq_iff (a b : List Char) : String.mk a = String.mk b ↔ a = b :=
  ⟨fun h => congrArg String.data h, fun h => congrArg String.mk h⟩

theorem takeUntilDot_append (l : List Char) : ∃ t, takeUntilDot l ++ t = l := by
  induction l with
  | nil => exact ⟨[], rfl⟩
  | cons c cs ih =>
    by_cases hc : c = '.'
    · subst hc
      exact ⟨cs, by simp [takeUntilDot]⟩
    · obtain ⟨t, ht⟩ := ih
      exact ⟨t, by simp [takeUntilDot, hc, ht]⟩

theorem takeUntilDot_map_lower (l : List Char) :
    takeUntilDot (l.map lowerAscii) = (takeUntilDot l).map lowerAscii := by
  induction l with
  | nil => rfl
  | cons c cs ih =>
    by_cases hc : c = '.'
    · subst hc
      rfl
    · have hc' : lowerAscii c ≠ '.' := fun h => hc ((lowerAscii_eq_dot c).mp h)
      simp [takeUntilDot, hc, hc', ih]

theorem mem_map_lower_dot (cs : List Char) : '.' ∈ cs.map lowerAscii ↔ '.' ∈ cs := by
  simp only [List.mem_map]
  constructor
  · rintro ⟨c, hc, h⟩
    rwa [(lowerAscii_eq_dot c).mp h] at hc
  · intro h
    exact ⟨'.', h, rfl⟩

theorem takeUntilDot_no_dot (u v : List Char) (h : '.' ∉ u) :
    takeUntilDot (u ++ '.' :: v) = u ++ ['.'] := by
  induction u with
  | nil => rfl
  | cons c cs ih =>
    have hc : c ≠ '.' := fun hc => h (hc ▸ List.mem_cons_self c cs)
    simp [takeUntilDot, hc, ih (fun hm => h (List.mem_cons_of_mem c hm))]

theorem sliceLastDot_eq_iff (ls ts : List Char) (hne : ts ≠ []) (hnd : '.' ∉ ts) :
    (if '.' ∈ ls then (takeUntilDot ls.reverse).reverse
      else ls.drop (ls.length - 1)) = '.' :: ts ↔ ('.' :: ts) <:+ ls := by
  by_cases hd : '.' ∈ ls
  · rw [if_pos hd]
    constructor
    · intro h
      obtain ⟨t, ht⟩ := takeUntilDot_append ls.reverse
      have h1 : takeUntilDot ls.reverse = ts.reverse ++ ['.'] := by
        have h2 := congrArg List.reverse h
        rw [List.reverse_reverse] at h2
        rw [h2]
        simp
      rw [h1] at ht
      refine ⟨t.reverse, ?_⟩
      have h3 := congrArg List.reverse ht
      rw [List.reverse_reverse] at h3
      rw [← h3]
      simp
    · rintro ⟨pre, hpre⟩
      have hnd' : '.' ∉ ts.reverse := by simpa using hnd
      rw [← hpre, List.reverse_append, List.reverse_cons, List.append_assoc,
        List.singleton_append, takeUntilDot_no_dot ts.reverse pre.reverse hnd']
      simp
  · rw [if_neg hd]
    constructor
    · intro h
      have hlen := congrArg List.length h
      rw [List.length_drop, List.length_cons] at hlen
      have hts : 0 < ts.length := List.length_pos.mpr hne
      omega
    · rintro ⟨pre, hpre⟩
      exfalso
      apply hd
      rw [← hpre]
      exact List.mem_append_right pre (List.mem_cons_self '.' ts)

theorem jsFileExt_as_lower (name : String) :
    jsFileExt name =
      String.mk
        (if '.' ∈ name.toList.map lowerAscii then
          (takeUntilDot (name.toList.map lowerAscii).reverse).reverse
        else
          (name.toList.map lowerAscii).drop
            ((name.toList.map lowerAscii).length - 1)) := by
  unfold jsFileExt
  dsimp only
  by_cases hd : '.' ∈ name.toList
  · rw [if_pos hd, if_pos ((mem_map_lower_dot _).mpr hd)]
    congr 1
    rw [← List.map_reverse, takeUntilDot_map_lower, List.map_reverse]
  · rw [if_neg hd, if_neg (fun hmem => hd ((mem_map_lower_dot _).mp hmem))]
    congr 1
    rw [List.length_map, List.map_drop]

/-- C9: the upload validator accepts a file (returns null) exactly when
its MIME type is text/csv, application/json or application/vnd.ms-excel
or its name ends case-insensitively in .csv or .json, and its size is
at most 100 * 1024 * 1024 bytes; otherwise it returns a non-null error
message, so in particular a .txt or .log file with a non-matching MIME
type is rejected. -/
theorem validateFile_spec (f : JsFile) :
    validateFile f = none ↔
      ((f.type ∈ validTypes ∨ endsWithCI f.name ".csv" ∨ endsWithCI f.name ".json") ∧
        f.size ≤ 100 * 1024 * 1024) := by
  have key : ∀ ts : List Char, ts ≠ [] → '.' ∉ ts →
      (jsFileExt f.name = String.mk ('.' :: ts) ↔
        ('.' :: ts) <:+ f.name.toList.map lowerAscii) := by
    intro ts h1 h2
    rw [jsFileExt_as_lower, stringMk_eq_iff]
    exact sliceLastDot_eq_iff _ ts h1 h2
  have hcsv : jsFileExt f.name = ".csv" ↔ endsWithCI f.name ".csv" := by
    rw [show (".csv" : String) = String.mk ['.', 'c', 's', 'v'] from by decide]
    exact key ['c', 's', 'v'] (by simp) (by decide)
  have hjson : jsFileExt f.name = ".json" ↔ endsWithCI f.name ".json" := by
    rw [show (".json" : String) = String.mk ['.', 'j', 's', 'o', 'n'] from by decide]
    exact key ['j', 's', 'o', 'n'] (by simp) (by decide)
  have hA : validTypes.contains f.type = true ↔ f.type ∈ validTypes :=
    List.elem_iff
  have hB : validExtensions.contains (jsFileExt f.name) = true ↔
      (endsWithCI f.name ".csv" ∨ endsWithCI f.name ".json") := by
    rw [show (validExtensions.contains (jsFileExt f.name) = true) ↔
        jsFileExt f.name ∈ validExtensions from List.elem_iff]
    simp only [validExtensions, List.mem_cons, List.not_mem_nil, or_false]
    rw [hcsv, hjson]
  unfold validateFile
  by_cases hc : (¬ validTypes.contains f.type ∧
      ¬ validExtensions.contains (jsFileExt f.name))
  · rw [if_pos hc]
    constructor
    · intro h
      exact absurd h (by simp)
    · rintro ⟨h1, -⟩
      exfalso
      rcases h1 with h1 | h1 | h1
      · exact hc.1 (hA.mpr h1)
      · exact hc.2 (hB.mpr (Or.inl h1))
      · exact hc.2 (hB.mpr (Or.inr h1))
  · rw [if_neg hc]
    rw [not_and_or, not_not, not_not] at hc
    by_cases hsize : 100 * 1024 * 1024 < f.size
    · rw [if_pos hsize]
      constructor
      · intro h
        exact absurd h (by simp)
      · rintro ⟨-, h2⟩
        omega
    · rw [if_neg hsize]
      constructor
      · intro _
        refine ⟨?_, by omega⟩
        rcases hc with hc | hc
        · exact Or.inl (hA.mp hc)
        · rcases hB.mp hc with h | h
          · exact Or.inr (Or.inl h)
          · exact Or.inr (Or.inr h)
      · intro _
        rfl

/-- Witness for C9 at a CSV-named file of 10 bytes with a non-matching
MIME type (accepted by extension). -/
theorem validateFile_spec_witness :
    validateFile { name := "x.csv", type := "text/plain", size := 10 } = none ↔
      (({ name := "x.csv", type := "text/plain", size := 10 } : JsFile).type ∈ validTypes ∨
          endsWithCI "x.csv" ".csv" ∨ endsWithCI "x.csv" ".json") ∧
        ({ name := "x.csv", type := "text/plain", size := 10 } : JsFile).size ≤
          100 * 1024 * 1024 :=
  validateFile_spec { name := "x.csv", type := "text/plain", size := 10 }

end Frontend

namespace Frontend

theorem strCmp_antisymm (a b : String) : strCmp b a = -strCmp a b := by
  unfold strCmp
  rcases lt_trichotomy a b with h | h | h
  · simp [h, asymm h]
  · subst h
    simp
  · simp [h, asymm h]

theorem strCmp_nonpos (a b : String) : ((strCmp a b : Int) : ℚ) ≤ 0 ↔ a ≤ b := by
  unfold strCmp
  rcases lt_trichotomy a b with h | h | h
  · simp [h, le_of_lt h]
  · subst h
    simp
  · rw [if_neg (asymm h), if_pos h]
    simp [not_le.mpr h]

theorem anomalyCmp_neg (key : SortKey) (a b : Anomaly) :
    anomalyCmp key b a = -anomalyCmp key a b := by
  cases key
  case timestamp =>
    simp only [anomalyCmp]
    push_cast
    ring
  case service =>
    simp only [anomalyCmp, strCmp_antisymm a.service b.service]
    push_cast
    ring
  case severity =>
    simp only [anomalyCmp]
    ring
  case deviation =>
    simp only [anomalyCmp]
    ring

theorem anomalyCmp_trans (key : SortKey) (a b c : Anomaly)
    (hab : anomalyCmp key a b ≤ 0) (hbc : anomalyCmp key b c ≤ 0) :
    anomalyCmp key a c ≤ 0 := by
  cases key
  case timestamp =>
    simp only [anomalyCmp] at *
    push_cast at *
    linarith
  case service =>
    rw [show anomalyCmp SortKey.service a b = ((strCmp a.service b.service : Int) : ℚ)
        from rfl, strCmp_nonpos] at hab
    rw [show anomalyCmp SortKey.service b c = ((strCmp b.service c.service : Int) : ℚ)
        from rfl, strCmp_nonpos] at hbc
    rw [show anomalyCmp SortKey.service a c = ((strCmp a.service c.service : Int) : ℚ)
        from rfl, strCmp_nonpos]
    exact le_trans hab hbc
  case severity =>
    simp only [anomalyCmp] at *
    push_cast at *
    linarith
  case deviation =>
    simp only [anomalyCmp] at *
    linarith

theorem anomalyCmp_total (key : SortKey) (a b : Anomaly) :
    anomalyCmp key a b ≤ 0 ∨ anomalyCmp key b a ≤ 0 := by
  rcases le_or_lt (anomalyCmp key a b) 0 with h | h
  · exact Or.inl h
  · right
    rw [anomalyCmp_neg]
    linarith

theorem jsComparator_trans (key : SortKey) (dir : SortDir) (a b c : Anomaly)
    (hab : jsComparator key dir a b ≤ 0) (hbc : jsComparator key dir b c ≤ 0) :
    jsComparator key dir a c ≤ 0 := by
  cases dir
  case asc => exact anomalyCmp_trans key a b c hab hbc
  case desc =>
    simp only [jsComparator] at *
    have h1 : anomalyCmp key b a ≤ 0 := by
      rw [anomalyCmp_neg]
      linarith
    have h2 : anomalyCmp key c b ≤ 0 := by
      rw [anomalyCmp_neg]
      linarith
    have h3 := anomalyCmp_trans key c b a h2 h1
    rw [anomalyCmp_neg] at h3
    linarith

theorem jsComparator_total (key : SortKey) (dir : SortDir) (a b : Anomaly) :
    jsComparator key dir a b ≤ 0 ∨ jsComparator key dir b a ≤ 0 := by
  cases dir
  case asc => exact anomalyCmp_total key a b
  case desc =>
    simp only [jsComparator]
    rcases anomalyCmp_total key b a with h | h
    · left
      rw [anomalyCmp_neg key a b] at h
      exact h
    · right
      rw [anomalyCmp_neg key a b, neg_neg]
      exact h

/-- C10: for every anomaly list, sort key (timestamp, service, severity
with order low < medium < high < critical, or deviation) and
direction, the table renders a permutation of the input ordered by the
per-key comparator, negated for descending; the sort operates on a
copy, the input list itself staying unchanged. -/
theorem sortedAnomalies_spec (key : SortKey) (dir : SortDir) (xs : List Anomaly) :
    (sortedAnomalies key dir xs).Perm xs ∧
    (sortedAnomalies key dir xs).Pairwise
      (fun a b => jsComparator key dir a b ≤ 0) := by
  constructor
  · exact sortBy_perm _ xs
  · have hs := sortBy_pairwise
      (fun a b => decide (jsComparator key dir a b ≤ 0))
      (fun a b => by
        rcases jsComparator_total key dir a b with h | h <;> simp [h])
      (fun a b c hab hbc => by
        simp only [decide_eq_true_eq] at *
        exact jsComparator_trans key dir a b c hab hbc)
      xs
    exact hs.imp (fun h => by simpa using h)

/-- Witness for C10 at the two-row sample sorted by severity
descending. -/
theorem sortedAnomalies_spec_witness :
    (sortedAnomalies .severity .desc sampleAnomalies).Perm sampleAnomalies ∧
    (sortedAnomalies .severity .desc sampleAnomalies).Pairwise
      (fun a b => jsComparator .severity .desc a b ≤ 0) :=
  sortedAnomalies_spec .severity .desc sampleAnomalies

end Frontend
